import Mathlib

/-!
# Signal replay: `src/replayer/rep_process_signal.c`

A shallow embedding of the two functions of the file,
`compensate_branch_count` and `rep_process_signal`, and theorems about them.

Conventions of the embedding.

* The traced process, the counter device and the trace reader are outside the
  file.  Their state is an abstract type `W`; every function the file calls but
  does not define is a field of `Collaborators W`.  A collaborator that
  receives `struct context *ctx` may rewrite every field of the context; the
  others only see and change `W`.
* Every call of a collaborator is appended to `State.calls`, in program order,
  so that "performs no single-step" is a statement about that list.
* `assert` is enabled (no `NDEBUG`): a failed assertion ends the run with
  `Abort.assertion line`.  `sys_exit` is the fatal-abort primitive and does not
  return; every other collaborator returns to its caller.  `printf`/`fprintf`
  are not modelled.
* `uint64_t` values are `Nat` with explicit `% 2^64`; the 32-bit `long`
  registers of `struct user_regs_struct` are `Nat` bit patterns with explicit
  `% 2^32`; `int` values are `Int`.
* `while (1)` is run with fuel; running out of fuel is the outcome `running`
  (the loop is still stepping), never a return.
-/

namespace RepProcessSignal

/-! ## Constants -/

/-- The skid margin, `#define SKID_SIZE 50` (line 18). -/
def SKID_SIZE : Nat := 50

/-- Signal number `SIGSEGV` of `<signal.h>` on Linux/x86. -/
def SIGSEGV : Int := 11

/-- Signal number `SIGCHLD` of `<signal.h>` on Linux/x86. -/
def SIGCHLD : Int := 17

/-- Signal number `SIGIO` of `<signal.h>` on Linux/x86. -/
def SIGIO : Int := 29

/-- The macro `WSTOPSIG(status)` of `<sys/wait.h>`: `((status) & 0xff00) >> 8`. -/
def WSTOPSIG (status : Int) : Int := (status / 256) % 256

/-- Unsigned 64-bit subtraction `a - b`, as C computes it on `uint64_t`. -/
def sub_u64 (a b : Nat) : Nat := (a % 2 ^ 64 + (2 ^ 64 - b % 2 ^ 64)) % 2 ^ 64

/-- The update `x += n` on a 32-bit `long` held as a bit pattern, `n` an `int`. -/
def add_long (x : Nat) (n : Int) : Nat := (((x : Int) + n) % 2 ^ 32).toNat

/-- The negation in `int sig = -trace->stop_reason;` on a 32-bit `int` (two's complement). -/
def neg_int (x : Int) : Int := (-x + 2 ^ 31) % 2 ^ 32 - 2 ^ 31

/-- The test `strncmp(a, b, n) == 0` on C strings given by their characters before the
terminating NUL. -/
def strncmp_eq (a b : List Char) (n : Nat) : Bool := a.take n == b.take n

/-! ## Data -/

/-- The register file, `struct user_regs_struct` of `<sys/user.h>` on i386. -/
structure user_regs_struct where
  ebx : Nat
  ecx : Nat
  edx : Nat
  esi : Nat
  edi : Nat
  ebp : Nat
  eax : Nat
  xds : Nat
  xes : Nat
  xfs : Nat
  xgs : Nat
  orig_eax : Nat
  eip : Nat
  xcs : Nat
  eflags : Nat
  esp : Nat
  xss : Nat
deriving DecidableEq, Repr

/-- The fields of `struct trace` the file reads. -/
structure trace where
  stop_reason : Int
  rbc_up : Nat
  recorded_regs : user_regs_struct
deriving DecidableEq, Repr

/-- One counter descriptor of the counter device (`ctx->hpc->rbc_down`). -/
structure hpc_event where
  fd : Int
deriving DecidableEq, Repr

/-- The counter device state behind `ctx->hpc`. -/
structure hpc_t where
  rbc_down : hpc_event
deriving DecidableEq, Repr

/-- The fields of `struct context` the file reads or writes. -/
structure context where
  child_tid : Int
  pending_sig : Int
  status : Int
  event : Int
  trace : trace
  hpc : hpc_t
deriving DecidableEq, Repr

/-- A call of a function that the file uses and does not define. -/
inductive Call where
  | read_rbc_up
  | read_child_registers (tid : Int)
  | singlestep (sig : Int)
  | compare_register_files (print stop : Int)
  | print_inst (tid : Int)
  | goto_next_event
  | get_inst (tid : Int) (off : Int)
  | write_child_registers (tid : Int) (regs : user_regs_struct)
  | sys_free
  | reset_hpc (val : Nat)
  | fcntl_getown (fd : Int)
  | stop_hpc_down
  | stop_hpc
  | sys_ptrace_cont (tid : Int)
  | sys_waitpid (tid : Int)
deriving DecidableEq, Repr

/-- The functions, and the two event constants, that the file takes from the
rest of the repository and from libc. -/
structure Collaborators (W : Type) where
  -- `SIG_SEGV_RDTSC` of `share/trace.h`
  SIG_SEGV_RDTSC : Int
  -- `USR_SCHED` of `share/trace.h`
  USR_SCHED : Int
  -- the five `case` labels of one `switch` are pairwise different: C rejects
  -- the file otherwise
  labels_distinct : [-SIG_SEGV_RDTSC, -USR_SCHED, SIGIO, SIGCHLD, SIGSEGV].Nodup
  read_rbc_up : hpc_t → W → Nat × W
  read_child_registers : Int → W → user_regs_struct × W
  signal_pending : Int → Int
  singlestep : context → Int → W → context × W
  compare_register_files : user_regs_struct → user_regs_struct → Int → Int → Int
  print_inst : Int → W → W
  goto_next_event : context → W → context × W
  get_inst : Int → Int → W → (List Char × Int) × W
  write_child_registers : Int → user_regs_struct → W → W
  reset_hpc : context → Nat → W → context × W
  fcntl_getown : Int → W → Int × W
  stop_hpc_down : context → W → context × W
  stop_hpc : context → W → context × W
  sys_ptrace_cont : Int → W → W
  sys_waitpid : Int → W → Int × W

/-- The replay context, the world outside it, and the calls made so far. -/
structure State (W : Type) where
  ctx : context
  world : W
  calls : List Call
deriving DecidableEq, Repr

/-- Modelled from the spec: how a run ends without returning.  The function
`sys_exit` of `share/sys.h` is not among the sources; it is the fatal-abort
primitive of the spec, which "terminates the entire replay session
immediately", so nothing after a call of it is executed.  The other way is a
failed `assert` of `<assert.h>`, recorded with its source line. -/
inductive Abort where
  | assertion (line : Nat)
  | sys_exit
deriving DecidableEq, Repr

/-- How a run of a function ends. -/
inductive Outcome (W : Type) where
  | returned (s : State W)
  | aborted (why : Abort) (s : State W)
  | running (s : State W)
deriving DecidableEq, Repr

/-- The state in which a run ended (or was still stepping). -/
def Outcome.state {W : Type} : Outcome W → State W
  | .returned s => s
  | .aborted _ s => s
  | .running s => s

/-- Whether the run returned to its caller. -/
def Outcome.isReturned {W : Type} : Outcome W → Bool
  | .returned _ => true
  | _ => false

/-- Sequencing: the rest of the caller runs only after a return. -/
def Outcome.andThen {W : Type} (o : Outcome W) (k : State W → Outcome W) : Outcome W :=
  match o with
  | .returned s => k s
  | .aborted a s => .aborted a s
  | .running s => .running s

/-! ## Call sites -/

section calls
variable {W : Type} (C : Collaborators W)

/-- A call `f(ctx, ...)` of a collaborator that takes the context. -/
def call_ctx (f : context → W → context × W) (c : Call) (s : State W) : State W :=
  { ctx := (f s.ctx s.world).1, world := (f s.ctx s.world).2, calls := s.calls ++ [c] }

/-- A call of a collaborator that only changes the world. -/
def call_world (f : W → W) (c : Call) (s : State W) : State W :=
  { s with world := f s.world, calls := s.calls ++ [c] }

/-- A call of a collaborator that reads a value from the world. -/
def call_read {α : Type} (f : W → α × W) (c : Call) (s : State W) : α × State W :=
  ((f s.world).1, { s with world := (f s.world).2, calls := s.calls ++ [c] })

/-- A call whose effect is outside the model (memory release, a pure
comparison): only recorded. -/
def call_pure (c : Call) (s : State W) : State W :=
  { s with calls := s.calls ++ [c] }

/-- The call `singlestep(ctx, sig)`. -/
def do_singlestep (sig : Int) (s : State W) : State W :=
  call_ctx (fun c w => C.singlestep c sig w) (.singlestep sig) s

/-- The assignment `ctx->pending_sig = v`. -/
def set_pending_sig (v : Int) (s : State W) : State W :=
  { s with ctx := { s.ctx with pending_sig := v } }

end calls

/-! ## `compensate_branch_count` (lines 23-92) -/

section model
variable {W : Type} (C : Collaborators W)

/-- Lines 58-59: `regs.eflags |= (1 << 7); regs.eflags |= (1 << 16);`. -/
def set_eflags_bits (regs : user_regs_struct) : user_regs_struct :=
  { regs with eflags := (regs.eflags ||| (1 <<< 7)) ||| (1 <<< 16) }

/-- Line 60: the test
`!compare_register_files("now", &regs, "rec", &ctx->trace.recorded_regs, 0, 0)`
on the live registers `live` read at the top of the iteration. -/
def registers_match (live rec : user_regs_struct) : Bool :=
  C.compare_register_files (set_eflags_bits live) rec 0 0 == 0

/-- How one pass through the body of `while (1)` ends. -/
inductive Iter (W : Type) where
  | next (s : State W)
  | done (s : State W)
  | abort (why : Abort) (s : State W)

/-- The state after one pass through the body. -/
def Iter.state {W : Type} : Iter W → State W
  | .next s => s
  | .done s => s
  | .abort _ s => s

/-- The body of `while (1)` (lines 42-90), for the signal `sig` and the recorded
count `rbc_rec` read before the loop. -/
def loop_body (sig : Int) (rbc_rec : Nat) (s : State W) : Iter W :=
  let r := call_read (C.read_child_registers s.ctx.child_tid)
    (.read_child_registers s.ctx.child_tid) s
  let regs := r.1
  let n := call_read (C.read_rbc_up r.2.ctx.hpc) .read_rbc_up r.2
  let rbc_now := n.1
  let s := n.2
  if C.signal_pending s.ctx.status ≠ 0 then .abort (.assertion 45) s
  else if rbc_now < rbc_rec then .next (do_singlestep C 0 s)
  else if rbc_now = rbc_rec then
    let s := call_pure (.compare_register_files 0 0) s
    if registers_match C regs s.ctx.trace.recorded_regs then
      if sig = SIGSEGV then
        let s := call_world (C.print_inst s.ctx.child_tid) (.print_inst s.ctx.child_tid) s
        let s := do_singlestep C 0 s
        let s := call_world (C.print_inst s.ctx.child_tid) (.print_inst s.ctx.child_tid) s
        if s.ctx.pending_sig = SIGSEGV then
          let s := do_singlestep C SIGSEGV s
          if s.ctx.pending_sig = 0 then .done s else .abort (.assertion 76) s
        else .next (do_singlestep C 0 (set_pending_sig sig s))
      else .next (do_singlestep C 0 (set_pending_sig sig s))
    else .next (do_singlestep C 0 s)
  else .abort .sys_exit s

/-- The loop `while (1)` of lines 41-91, run for at most `fuel` passes. -/
def loop (sig : Int) (rbc_rec : Nat) : Nat → State W → Outcome W
  | 0, s => .running s
  | fuel + 1, s =>
    match loop_body C sig rbc_rec s with
    | .next s1 => loop sig rbc_rec fuel s1
    | .done s1 => .returned s1
    | .abort a s1 => .aborted a s1

/-- The state at the top of pass `k` (counted from 0) of the loop started in
`s`, when the loop gets that far. -/
def loop_head (sig : Int) (rbc_rec : Nat) : Nat → State W → Option (State W)
  | 0, s => some s
  | k + 1, s =>
    match loop_body C sig rbc_rec s with
    | .next s1 => loop_head sig rbc_rec k s1
    | _ => none

/-- The function `compensate_branch_count(ctx, sig)` (lines 23-92). -/
def compensate_branch_count (fuel : Nat) (sig : Int) (s : State W) : Outcome W :=
  let n := call_read (C.read_rbc_up s.ctx.hpc) .read_rbc_up s
  let rbc_now := n.1
  let rbc_rec := n.2.ctx.trace.rbc_up
  if rbc_now > rbc_rec then .aborted (.assertion 38) n.2
  else loop C sig rbc_rec fuel n.2

/-! ## `rep_process_signal` (lines 94-197) -/

/-- The string literal of line 118. -/
def rdtsc : List Char := ['r', 'd', 't', 's', 'c']

/-- The call `reset_hpc(ctx, trace->rbc_up - SKID_SIZE)` of lines 139 and 168. -/
def do_reset_hpc (s : State W) : State W :=
  call_ctx (fun c w => C.reset_hpc c (sub_u64 s.ctx.trace.rbc_up SKID_SIZE) w)
    (.reset_hpc (sub_u64 s.ctx.trace.rbc_up SKID_SIZE)) s

/-- Lines 120-122: the registers written back for a timestamp read of `size` bytes. -/
def rdtsc_regs (regs recorded : user_regs_struct) (size : Int) : user_regs_struct :=
  { regs with eax := recorded.eax, edx := recorded.edx, eip := add_long regs.eip size }

/-- The function `rep_process_signal(ctx)` (lines 94-197). -/
def rep_process_signal (fuel : Nat) (s : State W) : Outcome W :=
  let tid := s.ctx.child_tid
  let sig := neg_int s.ctx.trace.stop_reason
  if s.ctx.pending_sig ≠ 0 then .aborted (.assertion 101) s
  else if sig = -C.SIG_SEGV_RDTSC then
    let s := call_ctx C.goto_next_event .goto_next_event s
    if WSTOPSIG s.ctx.status ≠ SIGSEGV then .aborted (.assertion 115) s
    else
      let g := call_read (C.get_inst tid 0) (.get_inst tid 0) s
      let inst := g.1.1
      let size := g.1.2
      let s := g.2
      if strncmp_eq inst rdtsc 5 = false then .aborted (.assertion 118) s
      else
        let r := call_read (C.read_child_registers tid) (.read_child_registers tid) s
        let s := r.2
        let regs := rdtsc_regs r.1 s.ctx.trace.recorded_regs size
        let s := call_world (C.write_child_registers tid regs) (.write_child_registers tid regs) s
        let s := call_pure .sys_free s
        let s := call_pure (.compare_register_files 1 1) s
        .returned (set_pending_sig 0 s)
  else if sig = -C.USR_SCHED then
    if s.ctx.trace.rbc_up > 0 then
      let s := do_reset_hpc C s
      let s := call_ctx C.goto_next_event .goto_next_event s
      let o := call_read (C.fcntl_getown s.ctx.hpc.rbc_down.fd)
        (.fcntl_getown s.ctx.hpc.rbc_down.fd) s
      let s := o.2
      if o.1 = s.ctx.child_tid then
        let s := set_pending_sig 0 s
        let s := call_ctx C.stop_hpc_down .stop_hpc_down s
        (compensate_branch_count C fuel sig s).andThen fun s =>
          .returned (call_ctx C.stop_hpc .stop_hpc s)
      else .aborted .sys_exit s
    else .aborted (.assertion 135) s
  else if sig = SIGIO ∨ sig = SIGCHLD ∨ sig = SIGSEGV then
    if s.ctx.trace.rbc_up = 0 then .returned (set_pending_sig sig s)
    else
      let s := do_reset_hpc C s
      if s.ctx.trace.rbc_up ≤ 1000 then
        (compensate_branch_count C fuel sig s).andThen fun s =>
          let s := call_ctx C.stop_hpc_down .stop_hpc_down s
          .returned (call_ctx C.stop_hpc .stop_hpc s)
      else if (1 : Int) = 0 then
        let s := call_world (C.sys_ptrace_cont tid) (.sys_ptrace_cont tid) s
        let w := call_read (C.sys_waitpid tid) (.sys_waitpid tid) s
        let s := { w.2 with ctx := { w.2.ctx with status := w.1 } }
        if WSTOPSIG s.ctx.status = SIGIO then compensate_branch_count C fuel sig s
        else .aborted (.assertion 183) s
      else .aborted (.assertion 179) s
  else .aborted .sys_exit s

end model

/-! ## A small concrete world

Used to run the model on concrete inputs: a process in which every instruction
is a counted branch, so that the counter equals the number of instructions
stepped since the last reset. -/

/-- Modelled from the spec: `compare_register_files` of `share/util.h`, which is
not among the sources.  It is the spec's register comparator, which "compares
two snapshots"; line 60 takes the result 0 as "the register files match".
Here it looks at every register, `eflags` included (lines 50-59 set bits of
`eflags` "to make sure that the register files match"); the two last
arguments do not change the result. -/
def compare_register_files (a b : user_regs_struct) (_print _stop : Int) : Int :=
  if a = b then 0 else 1

/-- The concrete world: the traced process and its counter device. -/
structure Toy where
  insns : Nat
  regs : user_regs_struct
  owner : Int
  faults : Bool
  stop_status : Int
  inst : List Char
  inst_len : Int
  armed : Option Nat
deriving DecidableEq, Repr

/-- A register file with every register zero. -/
def zero_regs : user_regs_struct :=
  ⟨0, 0, 0, 0, 0, 0, 0, 0, 0, 0, 0, 0, 0, 0, 0, 0, 0⟩

/-- One instruction of the concrete process: the program counter and the
counter both advance by one. -/
def Toy.step (w : Toy) : Toy :=
  { w with insns := w.insns + 1, regs := { w.regs with eip := w.regs.eip + 1 } }

/-- Single-step in the concrete world.  Stepping with a signal delivers it.
Stepping without one at the recorded count of a faulting process raises
`SIGSEGV` and leaves the process where it is; otherwise one instruction runs
and the stop is a plain `SIGTRAP` (status `0x57f`). -/
def Toy.singlestep (c : context) (sig : Int) (w : Toy) : context × Toy :=
  if sig ≠ 0 then
    ({ c with status := 0x57f, pending_sig := 0 }, { w.step with faults := false })
  else if w.faults = true ∧ w.insns = c.trace.rbc_up then
    ({ c with status := 0x57f, pending_sig := SIGSEGV }, w)
  else ({ c with status := 0x57f }, w.step)

/-- The collaborators of the concrete world. -/
def toy : Collaborators Toy where
  SIG_SEGV_RDTSC := -1026
  USR_SCHED := -1028
  labels_distinct := by decide
  read_rbc_up := fun _ w => (w.insns, w)
  read_child_registers := fun _ w => (w.regs, w)
  signal_pending := fun st => if WSTOPSIG st = 5 then 0 else WSTOPSIG st
  singlestep := Toy.singlestep
  compare_register_files := compare_register_files
  print_inst := fun _ w => w
  goto_next_event := fun c w => ({ c with status := w.stop_status }, w)
  get_inst := fun _ _ w => ((w.inst, w.inst_len), w)
  write_child_registers := fun _ r w => { w with regs := r }
  reset_hpc := fun c val w => (c, { w with insns := 0, armed := some val })
  fcntl_getown := fun _ w => (w.owner, w)
  stop_hpc_down := fun c w => (c, { w with armed := none })
  stop_hpc := fun c w => (c, w)
  sys_ptrace_cont := fun _ w => w
  sys_waitpid := fun _ w => (0x1d7f, w)

/-- A concrete process: thread 7, stopped by a trap, owner of its counter. -/
def toy_world : Toy :=
  { insns := 0, regs := { zero_regs with eip := 4096, eflags := 0x10080 }, owner := 7,
    faults := false, stop_status := 0x57f, inst := ['n', 'o', 'p'], inst_len := 1,
    armed := none }

/-- The concrete process after `n` instructions. -/
def toy_at (n : Nat) (faults : Bool) : Toy :=
  { toy_world with insns := n, faults := faults,
                   regs := { zero_regs with eip := 4096 + n, eflags := 0x10080 } }

/-- A concrete context for thread 7 whose current trace event has stop reason
`stop_reason` and recorded count `rbc_up`; the recorded registers are those
the concrete process has after `rbc_up` instructions. -/
def toy_state (stop_reason : Int) (rbc_up : Nat) (w : Toy) : State Toy :=
  { ctx := { child_tid := 7, pending_sig := 0, status := 0x57f, event := 0,
             trace := { stop_reason := stop_reason, rbc_up := rbc_up,
                        recorded_regs := { zero_regs with eip := 4096 + rbc_up,
                                                          eflags := 0x10080 } },
             hpc := { rbc_down := { fd := 3 } } },
    world := w, calls := [] }

/-- The calls `compensate_branch_count` makes. -/
def Call.in_loop : Call → Bool
  | .read_rbc_up => true
  | .read_child_registers _ => true
  | .singlestep _ => true
  | .compare_register_files _ _ => true
  | .print_inst _ => true
  | _ => false

/-- The signal a call injects into the process, if it injects one. -/
def Call.injects : Call → Option Int
  | .singlestep sig => if sig = 0 then none else some sig
  | _ => none

/-- The signals injected by a sequence of calls, in order. -/
def injected (l : List Call) : List Int := l.filterMap Call.injects

/-! ## The `switch` of `rep_process_signal` -/

section dispatch
variable {W : Type} (C : Collaborators W)

theorem sigio_ne_rdtsc : SIGIO ≠ -C.SIG_SEGV_RDTSC := by
  have h := C.labels_distinct
  simp only [List.nodup_cons, List.mem_cons, not_or] at h
  exact fun e => h.1.2.1 e.symm

theorem sigchld_ne_rdtsc : SIGCHLD ≠ -C.SIG_SEGV_RDTSC := by
  have h := C.labels_distinct
  simp only [List.nodup_cons, List.mem_cons, not_or] at h
  exact fun e => h.1.2.2.1 e.symm

theorem sigsegv_ne_rdtsc : SIGSEGV ≠ -C.SIG_SEGV_RDTSC := by
  have h := C.labels_distinct
  simp only [List.nodup_cons, List.mem_cons, List.mem_singleton, not_or] at h
  exact fun e => h.1.2.2.2.1 e.symm

theorem sigio_ne_sched : SIGIO ≠ -C.USR_SCHED := by
  have h := C.labels_distinct
  simp only [List.nodup_cons, List.mem_cons, not_or] at h
  exact fun e => h.2.1.1 e.symm

theorem sigchld_ne_sched : SIGCHLD ≠ -C.USR_SCHED := by
  have h := C.labels_distinct
  simp only [List.nodup_cons, List.mem_cons, not_or] at h
  exact fun e => h.2.1.2.1 e.symm

theorem sigsegv_ne_sched : SIGSEGV ≠ -C.USR_SCHED := by
  have h := C.labels_distinct
  simp only [List.nodup_cons, List.mem_cons, List.mem_singleton, not_or] at h
  exact fun e => h.2.1.2.2.1 e.symm

theorem sched_ne_rdtsc : -C.USR_SCHED ≠ -C.SIG_SEGV_RDTSC := by
  have h := C.labels_distinct
  simp only [List.nodup_cons, List.mem_cons, not_or] at h
  exact fun e => h.1.1 e.symm

/-- A true OS signal is neither of the two synthetic events. -/
theorem os_signal_not_synthetic {sig : Int}
    (h : sig = SIGIO ∨ sig = SIGCHLD ∨ sig = SIGSEGV) :
    sig ≠ -C.SIG_SEGV_RDTSC ∧ sig ≠ -C.USR_SCHED := by
  rcases h with h | h | h <;> subst h
  · exact ⟨sigio_ne_rdtsc C, sigio_ne_sched C⟩
  · exact ⟨sigchld_ne_rdtsc C, sigchld_ne_sched C⟩
  · exact ⟨sigsegv_ne_rdtsc C, sigsegv_ne_sched C⟩

/-- C1. Zero-count synchronous signal: entered with no pending signal, on an
event whose negated stop reason is `SIGIO`, `SIGCHLD` or `SIGSEGV` and whose
recorded branch count is zero, `rep_process_signal` returns; the state on
return is the state on entry with `pending_sig` set to the signal.  The world
and every other field of the context are unchanged, and no collaborator was
called: no `reset_hpc`, no `goto_next_event`, no `singlestep`, no counter
stop. -/
theorem rep_process_signal_zero_count (fuel : Nat) (s : State W)
    (hp : s.ctx.pending_sig = 0)
    (hsig : neg_int s.ctx.trace.stop_reason = SIGIO ∨
      neg_int s.ctx.trace.stop_reason = SIGCHLD ∨
      neg_int s.ctx.trace.stop_reason = SIGSEGV)
    (hz : s.ctx.trace.rbc_up = 0) :
    rep_process_signal C fuel s =
      .returned { ctx := { s.ctx with pending_sig := neg_int s.ctx.trace.stop_reason },
                  world := s.world, calls := s.calls } := by
  have hs := os_signal_not_synthetic C hsig
  simp [rep_process_signal, hp, hs.1, hs.2, hsig, hz, set_pending_sig]

/-- C1 on a `SIGIO` event with recorded count 0 in the concrete world. -/
theorem rep_process_signal_zero_count_witness :
    rep_process_signal toy 0 (toy_state (-29) 0 toy_world) =
      .returned { ctx := { (toy_state (-29) 0 toy_world).ctx with pending_sig := 29 },
                  world := toy_world, calls := [] } :=
  rep_process_signal_zero_count toy 0 (toy_state (-29) 0 toy_world) rfl
    (Or.inl (by decide)) rfl

/-- C3. Unrecognised event kind: entered with no pending signal, on an event
whose negated stop reason is none of `-SIG_SEGV_RDTSC`, `-USR_SCHED`, `SIGIO`,
`SIGCHLD`, `SIGSEGV`, `rep_process_signal` ends in `sys_exit` for every fuel; it
never returns.  The state at the abort is the state on entry: no collaborator
was called (no `reset_hpc`, no `goto_next_event`, no `singlestep`) and
`pending_sig` was not written. -/
theorem rep_process_signal_unknown_event (fuel : Nat) (s : State W)
    (hp : s.ctx.pending_sig = 0)
    (h1 : neg_int s.ctx.trace.stop_reason ≠ -C.SIG_SEGV_RDTSC)
    (h2 : neg_int s.ctx.trace.stop_reason ≠ -C.USR_SCHED)
    (h3 : neg_int s.ctx.trace.stop_reason ≠ SIGIO)
    (h4 : neg_int s.ctx.trace.stop_reason ≠ SIGCHLD)
    (h5 : neg_int s.ctx.trace.stop_reason ≠ SIGSEGV) :
    rep_process_signal C fuel s = .aborted .sys_exit s := by
  simp [rep_process_signal, hp, h1, h2, h3, h4, h5]

/-- C3 on an event with negated stop reason 14 in the concrete world. -/
theorem rep_process_signal_unknown_event_witness :
    rep_process_signal toy 5 (toy_state (-14) 3 toy_world) =
      .aborted .sys_exit (toy_state (-14) 3 toy_world) :=
  rep_process_signal_unknown_event toy 5 (toy_state (-14) 3 toy_world) rfl
    (by decide) (by decide) (by decide) (by decide) (by decide)

/-- C2. Timestamp-read substitution: entered with no pending signal on an
event whose negated stop reason is `-SIG_SEGV_RDTSC`, if after
`goto_next_event` the process is stopped by `SIGSEGV` and the instruction
decoded at the program counter starts with `rdtsc` and has length `n`, then
`rep_process_signal` returns with `pending_sig = 0`.  The register file written
back is the one just read from the process except that `eax` and `edx` are
the recorded ones and `eip` is the live `eip` plus `n` in the 32-bit arithmetic
of the register (exactly `eip + n` when that does not wrap); the other fourteen
registers are the live ones.  The calls made are exactly `goto_next_event`,
`get_inst`, `read_child_registers`, `write_child_registers`, `sys_free` and
`compare_register_files`: no `reset_hpc` and no `singlestep`. -/
theorem rep_process_signal_rdtsc (fuel : Nat) (s : State W)
    (hp : s.ctx.pending_sig = 0)
    (hsig : neg_int s.ctx.trace.stop_reason = -C.SIG_SEGV_RDTSC)
    (hstop : WSTOPSIG (C.goto_next_event s.ctx s.world).1.status = SIGSEGV)
    (hinst : strncmp_eq
      (C.get_inst s.ctx.child_tid 0 (C.goto_next_event s.ctx s.world).2).1.1 rdtsc 5 = true) :
    let tid := s.ctx.child_tid
    let c1 := (C.goto_next_event s.ctx s.world).1
    let g := C.get_inst tid 0 (C.goto_next_event s.ctx s.world).2
    let n := g.1.2
    let live := (C.read_child_registers tid g.2).1
    let recorded := c1.trace.recorded_regs
    let written : user_regs_struct :=
      { ebx := live.ebx, ecx := live.ecx, edx := recorded.edx, esi := live.esi,
        edi := live.edi, ebp := live.ebp, eax := recorded.eax, xds := live.xds,
        xes := live.xes, xfs := live.xfs, xgs := live.xgs, orig_eax := live.orig_eax,
        eip := add_long live.eip n, xcs := live.xcs, eflags := live.eflags,
        esp := live.esp, xss := live.xss }
    rep_process_signal C fuel s =
        .returned
          { ctx := { c1 with pending_sig := 0 },
            world := C.write_child_registers tid written (C.read_child_registers tid g.2).2,
            calls := s.calls ++
              [.goto_next_event, .get_inst tid 0, .read_child_registers tid,
               .write_child_registers tid written, .sys_free,
               .compare_register_files 1 1] } ∧
      (0 ≤ n → (live.eip : Int) + n < 2 ^ 32 → (written.eip : Int) = live.eip + n) := by
  intro tid c1 g n live recorded written
  constructor
  · simp [rep_process_signal, hp, hsig, call_ctx, call_read, call_world, call_pure,
      set_pending_sig, hstop, hinst, rdtsc_regs, tid, c1, g, n, live, recorded, written]
  · intro h0 hlt
    show ((add_long live.eip n : Nat) : Int) = live.eip + n
    unfold add_long
    have hnn : (0 : Int) ≤ (live.eip : Int) + n := by omega
    rw [Int.emod_eq_of_lt hnn hlt, Int.toNat_of_nonneg hnn]

/-- C2 on a timestamp-read event in the concrete world: the instruction is
`rdtsc` of length 2 at `eip = 4096`. -/
theorem rep_process_signal_rdtsc_witness :
    rep_process_signal toy 0 (toy_state (-1026) 3
        { toy_world with stop_status := 0xb7f, inst := rdtsc, inst_len := 2 }) =
      .returned
        { ctx := { (toy_state (-1026) 3 toy_world).ctx with pending_sig := 0, status := 0xb7f },
          world := { toy_world with stop_status := 0xb7f, inst := rdtsc, inst_len := 2,
                                    regs := { zero_regs with eip := 4098, eflags := 0x10080 } },
          calls := [.goto_next_event, .get_inst 7 0, .read_child_registers 7,
            .write_child_registers 7 { zero_regs with eip := 4098, eflags := 0x10080 },
            .sys_free, .compare_register_files 1 1] } :=
  (rep_process_signal_rdtsc toy 0 (toy_state (-1026) 3
    { toy_world with stop_status := 0xb7f, inst := rdtsc, inst_len := 2 })
    rfl (by decide) (by decide) (by decide)).1

end dispatch

/-! ## The convergence loop -/

section convergence
variable {W : Type} (C : Collaborators W)

/-- The only way out of the loop body with `break` is the trap-style branch. -/
theorem loop_body_done {sig : Int} {rbc_rec : Nat} {s s1 : State W}
    (h : loop_body C sig rbc_rec s = .done s1) :
    sig = SIGSEGV ∧ s1.ctx.pending_sig = 0 := by
  unfold loop_body at h
  simp only at h
  split at h
  · cases h
  · split at h
    · cases h
    · split at h
      · split at h
        · split at h
          · split at h
            · split at h
              · cases h; constructor <;> assumption
              · cases h
            · cases h
          · cases h
        · cases h
      · cases h

/-- A return from the loop comes from the trap-style branch. -/
theorem loop_returned {sig : Int} {rbc_rec : Nat} :
    ∀ (fuel : Nat) (s s1 : State W), loop C sig rbc_rec fuel s = .returned s1 →
      sig = SIGSEGV ∧ s1.ctx.pending_sig = 0 := by
  intro fuel
  induction fuel with
  | zero => intro s s1 h; simp [loop] at h
  | succ k ih =>
    intro s s1 h
    unfold loop at h
    split at h
    · exact ih _ _ h
    · next s2 hb =>
      cases h
      exact loop_body_done C hb
    · cases h

/-- A return from `compensate_branch_count` comes from the trap-style branch. -/
theorem compensate_returned {fuel : Nat} {sig : Int} {s s1 : State W}
    (h : compensate_branch_count C fuel sig s = .returned s1) :
    sig = SIGSEGV ∧ s1.ctx.pending_sig = 0 := by
  unfold compensate_branch_count at h
  simp only at h
  split at h
  · cases h
  · exact loop_returned C _ _ _ h

theorem loop_from_head {sig : Int} {rbc_rec : Nat} :
    ∀ (k m : Nat) (s sk : State W), loop_head C sig rbc_rec k s = some sk →
      loop C sig rbc_rec (k + m) s = loop C sig rbc_rec m sk := by
  intro k
  induction k with
  | zero =>
    intro m s sk h
    simp only [loop_head, Option.some.injEq] at h
    rw [Nat.zero_add, h]
  | succ k ih =>
    intro m s sk h
    rw [Nat.succ_add]
    unfold loop_head at h
    split at h
    · next s1 hb =>
      have step : loop C sig rbc_rec (k + m).succ s = loop C sig rbc_rec (k + m) s1 := by
        simp [loop, hb]
      rw [step]
      exact ih m s1 sk h
    · cases h

/-- A call whose first `k` passes go round the loop continues from the state
at the top of pass `k`. -/
theorem compensate_from_head (k m : Nat) (sig : Int) (s sk : State W)
    (h0 : (call_read (C.read_rbc_up s.ctx.hpc) .read_rbc_up s).1 ≤ s.ctx.trace.rbc_up)
    (hk : loop_head C sig s.ctx.trace.rbc_up k
      (call_read (C.read_rbc_up s.ctx.hpc) .read_rbc_up s).2 = some sk) :
    compensate_branch_count C (k + m) sig s = loop C sig s.ctx.trace.rbc_up m sk := by
  have h1 : ¬ (call_read (C.read_rbc_up s.ctx.hpc) .read_rbc_up s).1 >
      (call_read (C.read_rbc_up s.ctx.hpc) .read_rbc_up s).2.ctx.trace.rbc_up :=
    Nat.not_lt.2 h0
  exact (if_neg h1).trans (loop_from_head C k m _ sk hk)

/-- C4. Overcounting is fatal in `compensate_branch_count`, for every signal
and all collaborators.  If the counter read before the loop exceeds the
recorded count, the call ends on the assertion of line 38 right after that
read, for every fuel.  If the loop gets to a pass `k` and the counter read in
that pass exceeds the recorded count, the call ends right after that read,
on the assertion of line 45 if a signal is pending on the status and in
`sys_exit` otherwise.  In both cases the outcome is an abort, not a return;
the context, and so `pending_sig`, is as it was before the read, and the only
calls made after the state before the read are the reads themselves: no
`singlestep`. -/
theorem compensate_branch_count_overcount (fuel k : Nat) (sig : Int) (s sk : State W) :
    let n0 := call_read (C.read_rbc_up s.ctx.hpc) .read_rbc_up s
    let rbc_rec := s.ctx.trace.rbc_up
    let r := call_read (C.read_child_registers sk.ctx.child_tid)
      (.read_child_registers sk.ctx.child_tid) sk
    let n := call_read (C.read_rbc_up sk.ctx.hpc) .read_rbc_up r.2
    (n0.1 > rbc_rec →
      compensate_branch_count C fuel sig s = .aborted (.assertion 38) n0.2) ∧
    (n0.1 ≤ rbc_rec → loop_head C sig rbc_rec k n0.2 = some sk → n.1 > rbc_rec →
      compensate_branch_count C (k + (fuel + 1)) sig s =
        .aborted (if C.signal_pending sk.ctx.status = 0 then .sys_exit else .assertion 45)
          n.2) ∧
    n0.2.ctx = s.ctx ∧ n0.2.calls = s.calls ++ [.read_rbc_up] ∧
    n.2.ctx = sk.ctx ∧
    n.2.calls = sk.calls ++ [.read_child_registers sk.ctx.child_tid, .read_rbc_up] := by
  intro n0 rbc_rec r n
  refine ⟨?_, ?_, rfl, rfl, rfl, ?_⟩
  · intro h
    exact if_pos h
  · intro h0 hk h
    rw [compensate_from_head C k (fuel + 1) sig s sk h0 hk]
    have h1 : ¬ n.1 < rbc_rec := Nat.lt_asymm h
    have h2 : ¬ n.1 = rbc_rec := Nat.ne_of_gt h
    have hb : loop_body C sig rbc_rec sk =
        .abort (if C.signal_pending sk.ctx.status = 0 then .sys_exit else .assertion 45)
          n.2 := by
      by_cases hs : C.signal_pending sk.ctx.status = 0
      · have hs1 : ¬ C.signal_pending n.2.ctx.status ≠ 0 := fun h => h hs
        rw [if_pos hs]
        exact (if_neg hs1).trans ((if_neg h1).trans (if_neg h2))
      · have hs1 : C.signal_pending n.2.ctx.status ≠ 0 := hs
        rw [if_neg hs]
        exact if_pos hs1
    show loop C sig rbc_rec (fuel + 1) sk = _
    unfold loop
    rw [hb]
  · simp [n, r, call_read]

/-- C4 in the concrete world: a call entered with the counter at 7 for the
recorded count 3, and a call entered at 3 whose second pass reads 4. -/
theorem compensate_branch_count_overcount_witness :
    compensate_branch_count toy 9 SIGIO (toy_state (-29) 3 (toy_at 7 false)) =
        .aborted (.assertion 38)
          { (toy_state (-29) 3 (toy_at 7 false)) with calls := [.read_rbc_up] } ∧
      compensate_branch_count toy (1 + (9 + 1)) SIGIO (toy_state (-29) 3 (toy_at 3 false)) =
        .aborted .sys_exit
          { ctx := { (toy_state (-29) 3 toy_world).ctx with pending_sig := 29, status := 0x57f },
            world := toy_at 4 false,
            calls := [.read_rbc_up, .read_child_registers 7, .read_rbc_up,
              .compare_register_files 0 0, .singlestep 0,
              .read_child_registers 7, .read_rbc_up] } :=
  ⟨(compensate_branch_count_overcount toy 9 0 SIGIO (toy_state (-29) 3 (toy_at 7 false))
      (toy_state (-29) 3 (toy_at 7 false))).1 (by decide),
   (compensate_branch_count_overcount toy 9 1 SIGIO (toy_state (-29) 3 (toy_at 3 false))
      { ctx := { (toy_state (-29) 3 toy_world).ctx with pending_sig := 29, status := 0x57f },
        world := toy_at 4 false,
        calls := [.read_rbc_up, .read_child_registers 7, .read_rbc_up,
          .compare_register_files 0 0, .singlestep 0] }).2.1
      (by decide) (by decide) (by decide)⟩

theorem call_read_calls {α : Type} (f : W → α × W) (c : Call) (s : State W) :
    (call_read f c s).2.calls = s.calls ++ [c] := rfl

theorem call_read_ctx {α : Type} (f : W → α × W) (c : Call) (s : State W) :
    (call_read f c s).2.ctx = s.ctx := rfl

theorem call_ctx_calls (f : context → W → context × W) (c : Call) (s : State W) :
    (call_ctx f c s).calls = s.calls ++ [c] := rfl

theorem call_world_calls (f : W → W) (c : Call) (s : State W) :
    (call_world f c s).calls = s.calls ++ [c] := rfl

theorem call_world_ctx (f : W → W) (c : Call) (s : State W) :
    (call_world f c s).ctx = s.ctx := rfl

theorem call_pure_calls (c : Call) (s : State W) :
    (call_pure c s).calls = s.calls ++ [c] := rfl

theorem call_pure_ctx (c : Call) (s : State W) :
    (call_pure c s).ctx = s.ctx := rfl

theorem do_singlestep_calls (sig : Int) (s : State W) :
    (do_singlestep C sig s).calls = s.calls ++ [.singlestep sig] := rfl

theorem set_pending_sig_calls (v : Int) (s : State W) :
    (set_pending_sig v s).calls = s.calls := rfl

theorem iter_state_ite (p : Prop) [Decidable p] (a : Abort) (x : State W) :
    (if p then Iter.done x else Iter.abort a x).state = x := by
  split <;> rfl

/-- What one pass of the loop adds to the calls: only calls of the loop, and a
signal is injected only by the last call of a pass that leaves the loop. -/
theorem loop_body_calls (sig : Int) (rbc_rec : Nat) (s : State W) :
    ∃ new, (loop_body C sig rbc_rec s).state.calls = s.calls ++ new ∧
      (∀ c ∈ new, c.in_loop = true) ∧
      (injected new = [] ∨
        (sig = SIGSEGV ∧ injected new = [SIGSEGV] ∧
          new.getLast? = some (.singlestep SIGSEGV) ∧
          ∀ s1, loop_body C sig rbc_rec s ≠ .next s1)) := by
  unfold loop_body
  simp only
  split
  · apply Exists.intro
    refine ⟨?_, ?_, ?_⟩
    · simp only [Iter.state, call_read_calls, List.append_assoc, List.singleton_append]
      rfl
    · simp [Call.in_loop]
    · exact Or.inl rfl
  · split
    · apply Exists.intro
      refine ⟨?_, ?_, ?_⟩
      · simp only [Iter.state, call_read_calls, do_singlestep_calls, List.append_assoc,
          List.singleton_append]
        rfl
      · simp [Call.in_loop]
      · exact Or.inl rfl
    · split
      · split
        · split
          · split
            · apply Exists.intro
              refine ⟨?_, ?_, ?_⟩
              · simp only [iter_state_ite, call_read_calls, do_singlestep_calls,
                  call_world_calls, call_pure_calls, List.append_assoc, List.singleton_append,
                  List.cons_append]
                rfl
              · simp [Call.in_loop]
              · refine Or.inr ⟨by assumption, rfl, rfl, ?_⟩
                intro s1; split <;> simp
            · apply Exists.intro
              refine ⟨?_, ?_, ?_⟩
              · simp only [Iter.state, call_read_calls, do_singlestep_calls, call_world_calls,
                  call_pure_calls, set_pending_sig_calls, List.append_assoc,
                  List.singleton_append, List.cons_append]
                rfl
              · simp [Call.in_loop]
              · exact Or.inl rfl
          · apply Exists.intro
            refine ⟨?_, ?_, ?_⟩
            · simp only [Iter.state, call_read_calls, do_singlestep_calls, call_pure_calls,
                set_pending_sig_calls, List.append_assoc, List.singleton_append,
                List.cons_append]
              rfl
            · simp [Call.in_loop]
            · exact Or.inl rfl
        · apply Exists.intro
          refine ⟨?_, ?_, ?_⟩
          · simp only [Iter.state, call_read_calls, do_singlestep_calls, call_pure_calls,
              List.append_assoc, List.singleton_append, List.cons_append]
            rfl
          · simp [Call.in_loop]
          · exact Or.inl rfl
      · apply Exists.intro
        refine ⟨?_, ?_, ?_⟩
        · simp only [Iter.state, call_read_calls, List.append_assoc, List.singleton_append]
          rfl
        · simp [Call.in_loop]
        · exact Or.inl rfl

theorem getLast?_append_of_some {α : Type} (l1 l2 : List α) (x : α)
    (h : l2.getLast? = some x) : (l1 ++ l2).getLast? = some x := by
  rw [List.getLast?_append, h]; rfl

/-- What the loop adds to the calls: only calls of the loop; at most one of them
injects a signal, and it is then `SIGSEGV`, injected by the last call, after
which the loop is left. -/
theorem loop_calls (sig : Int) (rbc_rec : Nat) :
    ∀ (fuel : Nat) (s : State W),
      ∃ new, (loop C sig rbc_rec fuel s).state.calls = s.calls ++ new ∧
        (∀ c ∈ new, c.in_loop = true) ∧
        (injected new = [] ∨
          (sig = SIGSEGV ∧ injected new = [SIGSEGV] ∧
            new.getLast? = some (.singlestep SIGSEGV) ∧
            ∀ s1, loop C sig rbc_rec fuel s ≠ .running s1)) := by
  intro fuel
  induction fuel with
  | zero =>
    intro s
    exact ⟨[], by simp [loop, Outcome.state], by simp, Or.inl rfl⟩
  | succ k ih =>
    intro s
    obtain ⟨new1, h1, hin1, hj1⟩ := loop_body_calls C sig rbc_rec s
    unfold loop
    split
    · next s1 hb =>
      rw [hb] at h1 hj1
      have hj : injected new1 = [] := by
        rcases hj1 with hj | ⟨_, _, _, hn⟩
        · exact hj
        · exact absurd rfl (hn s1)
      obtain ⟨new2, h2, hin2, hj2⟩ := ih s1
      refine ⟨new1 ++ new2, ?_, ?_, ?_⟩
      · rw [h2]
        simp only [Iter.state] at h1
        rw [h1, List.append_assoc]
      · intro c hc
        rcases List.mem_append.1 hc with hc | hc
        · exact hin1 c hc
        · exact hin2 c hc
      · have hcat : injected (new1 ++ new2) = injected new2 := by
          unfold injected at hj ⊢
          rw [List.filterMap_append, hj, List.nil_append]
        rcases hj2 with hj2 | ⟨hs, hi, hl, hr⟩
        · exact Or.inl (by rw [hcat, hj2])
        · exact Or.inr ⟨hs, by rw [hcat, hi], getLast?_append_of_some _ _ _ hl, hr⟩
    · next s1 hb =>
      rw [hb] at h1 hj1
      refine ⟨new1, h1, hin1, ?_⟩
      rcases hj1 with hj | ⟨hs, hi, hl, _⟩
      · exact Or.inl hj
      · exact Or.inr ⟨hs, hi, hl, fun s2 h => by cases h⟩
    · next a s1 hb =>
      rw [hb] at h1 hj1
      refine ⟨new1, h1, hin1, ?_⟩
      rcases hj1 with hj | ⟨hs, hi, hl, _⟩
      · exact Or.inl hj
      · exact Or.inr ⟨hs, hi, hl, fun s2 h => by cases h⟩

/-- What `compensate_branch_count` adds to the calls. -/
theorem compensate_calls (fuel : Nat) (sig : Int) (s : State W) :
    ∃ new, (compensate_branch_count C fuel sig s).state.calls = s.calls ++ new ∧
      (∀ c ∈ new, c.in_loop = true) ∧
      (injected new = [] ∨
        (sig = SIGSEGV ∧ injected new = [SIGSEGV] ∧
          new.getLast? = some (.singlestep SIGSEGV) ∧
          ∀ s1, compensate_branch_count C fuel sig s ≠ .running s1)) := by
  unfold compensate_branch_count
  simp only
  split
  · exact ⟨[.read_rbc_up], rfl, by simp [Call.in_loop], Or.inl rfl⟩
  · obtain ⟨new, h, hin, hj⟩ := loop_calls C sig s.ctx.trace.rbc_up fuel
      (call_read (C.read_rbc_up s.ctx.hpc) .read_rbc_up s).2
    refine ⟨[.read_rbc_up] ++ new, ?_, ?_, ?_⟩
    · rw [call_read_ctx, h, call_read_calls, List.append_assoc]
    · intro c hc
      rcases List.mem_append.1 hc with hc | hc
      · revert hc; simp [Call.in_loop]
        intro hc; subst hc; rfl
      · exact hin c hc
    · have hcat : injected ([Call.read_rbc_up] ++ new) = injected new := by
        unfold injected
        rw [List.filterMap_append]
        rfl
      rw [call_read_ctx]
      rcases hj with hj | ⟨hs, hi, hl, hr⟩
      · exact Or.inl (by rw [hcat, hj])
      · exact Or.inr ⟨hs, by rw [hcat, hi], getLast?_append_of_some _ _ _ hl, hr⟩

theorem in_loop_ne_stop_hpc {new : List Call} (h : ∀ c ∈ new, c.in_loop = true) :
    Call.stop_hpc ∉ new := by
  intro hm
  have := h _ hm
  simp [Call.in_loop] at this

theorem andThen_of_not_returned (o : Outcome W) (k : State W → Outcome W)
    (h : o.isReturned = false) : o.andThen k = o := by
  cases o with
  | returned s => simp [Outcome.isReturned] at h
  | aborted a s => rfl
  | running s => rfl

/-- For a signal other than `SIGSEGV` the convergence call does not return. -/
theorem compensate_not_returned (fuel : Nat) (sig : Int) (s : State W)
    (h : sig ≠ SIGSEGV) : (compensate_branch_count C fuel sig s).isReturned = false := by
  cases hc : compensate_branch_count C fuel sig s with
  | returned s1 => exact absurd (compensate_returned C hc).1 h
  | aborted a s1 => rfl
  | running s1 => rfl

/-- A caller that runs the convergence call for a signal other than `SIGSEGV`
and tears the counter down afterwards never gets to the teardown. -/
theorem compensate_then_never (fuel : Nat) (sig : Int) (s0 s : State W)
    (k : State W → Outcome W) (pre : List Call) (h : sig ≠ SIGSEGV)
    (hpre : s.calls = s0.calls ++ pre) (hstop : Call.stop_hpc ∉ pre) :
    ((compensate_branch_count C fuel sig s).andThen k).isReturned = false ∧
      ∃ new, ((compensate_branch_count C fuel sig s).andThen k).state.calls =
        s0.calls ++ new ∧ Call.stop_hpc ∉ new := by
  have hn := compensate_not_returned C fuel sig s h
  rw [andThen_of_not_returned _ _ hn]
  refine ⟨hn, ?_⟩
  obtain ⟨new, hc, hin, _⟩ := compensate_calls C fuel sig s
  refine ⟨pre ++ new, by rw [hc, hpre, List.append_assoc], ?_⟩
  intro hm
  rcases List.mem_append.1 hm with hm | hm
  · exact hstop hm
  · exact in_loop_ne_stop_hpc hin hm

/-- C10. The only return of `compensate_branch_count` is the `break` of the
trap-style branch: whatever the collaborators do, if a call returns then
`sig = SIGSEGV` and `pending_sig = 0` at the return; for any other `sig` no
amount of fuel makes the call return, it ends in an abort or is still
stepping.  Consequently `rep_process_signal`, on a `SIGIO` or `SIGCHLD` event
with `0 < rbc_up ≤ 1000` and on a scheduler event, does not return for any
fuel, and `stop_hpc` is not among the calls it makes. -/
theorem compensate_branch_count_returns_only_by_trap :
    (∀ (fuel : Nat) (sig : Int) (s s1 : State W),
        compensate_branch_count C fuel sig s = .returned s1 →
        sig = SIGSEGV ∧ s1.ctx.pending_sig = 0) ∧
    (∀ (fuel : Nat) (sig : Int) (s : State W), sig ≠ SIGSEGV →
        (compensate_branch_count C fuel sig s).isReturned = false) ∧
    (∀ (fuel : Nat) (s : State W),
        ((neg_int s.ctx.trace.stop_reason = SIGIO ∨
              neg_int s.ctx.trace.stop_reason = SIGCHLD) ∧
            0 < s.ctx.trace.rbc_up ∧ s.ctx.trace.rbc_up ≤ 1000) ∨
          neg_int s.ctx.trace.stop_reason = -C.USR_SCHED →
        (rep_process_signal C fuel s).isReturned = false ∧
        ∃ new, (rep_process_signal C fuel s).state.calls = s.calls ++ new ∧
          Call.stop_hpc ∉ new) := by
  refine ⟨fun fuel sig s s1 h => compensate_returned C h,
    fun fuel sig s h => compensate_not_returned C fuel sig s h, ?_⟩
  intro fuel s h
  by_cases hp : s.ctx.pending_sig = 0
  swap
  · exact ⟨by simp [rep_process_signal, hp, Outcome.isReturned],
      [], by simp [rep_process_signal, hp, Outcome.state], by simp⟩
  rcases h with ⟨hsig, hpos, hle⟩ | hsig
  · have hos : neg_int s.ctx.trace.stop_reason = SIGIO ∨
        neg_int s.ctx.trace.stop_reason = SIGCHLD ∨
        neg_int s.ctx.trace.stop_reason = SIGSEGV := by
      rcases hsig with h | h
      · exact Or.inl h
      · exact Or.inr (Or.inl h)
    have hsyn := os_signal_not_synthetic C hos
    have hne : neg_int s.ctx.trace.stop_reason ≠ SIGSEGV := by
      rcases hsig with h | h <;> rw [h] <;> decide
    have hz : s.ctx.trace.rbc_up ≠ 0 := by omega
    unfold rep_process_signal
    simp only [hp, hsyn.1, hsyn.2, hos, hz, ne_eq, not_true_eq_false, if_false, if_true]
    split
    · exact compensate_then_never C fuel _ s _ _ [.reset_hpc (sub_u64 s.ctx.trace.rbc_up SKID_SIZE)]
        hne rfl (by simp)
    · exact ⟨by simp [Outcome.isReturned],
        [.reset_hpc (sub_u64 s.ctx.trace.rbc_up SKID_SIZE)],
        by simp [Outcome.state, do_reset_hpc, call_ctx], by simp⟩
  · have hne : neg_int s.ctx.trace.stop_reason ≠ SIGSEGV := by
      rw [hsig]; exact (sigsegv_ne_sched C).symm
    have hnr : -C.USR_SCHED ≠ -C.SIG_SEGV_RDTSC := sched_ne_rdtsc C
    unfold rep_process_signal
    simp only [hp, hsig, hnr, ne_eq, not_true_eq_false, if_false, if_true]
    split
    · split
      · refine compensate_then_never C fuel _ s _ _
          [.reset_hpc (sub_u64 s.ctx.trace.rbc_up SKID_SIZE), .goto_next_event,
            .fcntl_getown (call_ctx C.goto_next_event .goto_next_event
              (do_reset_hpc C s)).ctx.hpc.rbc_down.fd, .stop_hpc_down] ?_ ?_ (by simp)
        · rw [← hsig]; exact hne
        · simp [call_ctx, call_read, do_reset_hpc, set_pending_sig]
      · exact ⟨by simp [Outcome.isReturned],
          [.reset_hpc (sub_u64 s.ctx.trace.rbc_up SKID_SIZE), .goto_next_event,
            .fcntl_getown (call_ctx C.goto_next_event .goto_next_event
              (do_reset_hpc C s)).ctx.hpc.rbc_down.fd],
          by simp [Outcome.state, do_reset_hpc, call_ctx, call_read], by simp⟩
    · exact ⟨by simp [Outcome.isReturned], [], by simp [Outcome.state], by simp⟩

/-- C9. Trap-style delivery.  When a call for `sig = SIGSEGV` gets to a pass of
the loop that reaches the comparison (no signal pending on the status) with
the live counter equal to the recorded count and matching registers, the
function prints, single-steps once with no signal and prints again.  If
`pending_sig` is `SIGSEGV` after that step, it issues one more single-step,
injecting `SIGSEGV`; then the call returns with `pending_sig = 0`, that step
being the last call, or aborts on the assertion of line 76 if `pending_sig` is
not 0.  A pass that finds the live counter below the recorded count issues
`singlestep(ctx, 0)` and goes round again.  Over a whole call, whatever the
signal and the collaborators, either no single-step injects a signal, or
exactly one does: it injects `SIGSEGV`, the call was made for `SIGSEGV`, it is
the last call made, and the function has left the loop. -/
theorem compensate_branch_count_trap_delivery (fuel k : Nat) (s sk : State W) :
    let n0 := call_read (C.read_rbc_up s.ctx.hpc) .read_rbc_up s
    let rbc_rec := s.ctx.trace.rbc_up
    let tid := sk.ctx.child_tid
    let r := call_read (C.read_child_registers tid) (.read_child_registers tid) sk
    let n := call_read (C.read_rbc_up sk.ctx.hpc) .read_rbc_up r.2
    let s1 := n.2
    let s2 := call_world (C.print_inst tid) (.print_inst tid)
      (call_pure (.compare_register_files 0 0) s1)
    let s3 := do_singlestep C 0 s2
    let s4 := call_world (C.print_inst s3.ctx.child_tid) (.print_inst s3.ctx.child_tid) s3
    let s5 := do_singlestep C SIGSEGV s4
    (n0.1 ≤ rbc_rec → loop_head C SIGSEGV rbc_rec k n0.2 = some sk →
      C.signal_pending sk.ctx.status = 0 → n.1 = rbc_rec →
      registers_match C r.1 sk.ctx.trace.recorded_regs = true →
      s4.ctx.pending_sig = SIGSEGV →
        s5.calls = sk.calls ++ [.read_child_registers tid, .read_rbc_up,
          .compare_register_files 0 0, .print_inst tid, .singlestep 0,
          .print_inst s3.ctx.child_tid, .singlestep SIGSEGV] ∧
        (s5.ctx.pending_sig = 0 →
          compensate_branch_count C (k + (fuel + 1)) SIGSEGV s = .returned s5) ∧
        (s5.ctx.pending_sig ≠ 0 →
          compensate_branch_count C (k + (fuel + 1)) SIGSEGV s =
            .aborted (.assertion 76) s5)) ∧
    (∀ (sig : Int) (rbc : Nat), C.signal_pending sk.ctx.status = 0 → n.1 < rbc →
      loop_body C sig rbc sk = .next (do_singlestep C 0 s1) ∧
      (do_singlestep C 0 s1).calls =
        sk.calls ++ [.read_child_registers tid, .read_rbc_up, .singlestep 0]) ∧
    (∀ sig : Int, ∃ new,
      (compensate_branch_count C fuel sig s).state.calls = s.calls ++ new ∧
      (injected new = [] ∨
        (sig = SIGSEGV ∧ injected new = [SIGSEGV] ∧
          new.getLast? = some (.singlestep SIGSEGV) ∧
          ∀ s1, compensate_branch_count C fuel sig s ≠ .running s1))) := by
  intro n0 rbc_rec tid r n s1 s2 s3 s4 s5
  refine ⟨?_, ?_, ?_⟩
  · intro h0 hk hs hn hm hp
    have hlt : ¬ n.1 < rbc_rec := fun h => absurd hn (Nat.ne_of_lt h)
    have key : loop_body C SIGSEGV rbc_rec sk =
        if s5.ctx.pending_sig = 0 then .done s5 else .abort (.assertion 76) s5 := by
      have hs1 : ¬ C.signal_pending n.2.ctx.status ≠ 0 := fun h => h hs
      exact (if_neg hs1).trans ((if_neg hlt).trans ((if_pos hn).trans
        ((if_pos hm).trans ((if_pos rfl).trans (if_pos hp)))))
    have hrun : compensate_branch_count C (k + (fuel + 1)) SIGSEGV s =
        loop C SIGSEGV rbc_rec (fuel + 1) sk :=
      compensate_from_head C k (fuel + 1) SIGSEGV s sk h0 hk
    refine ⟨?_, ?_, ?_⟩
    · simp [s5, s4, s3, s2, s1, n, r, do_singlestep, call_ctx, call_world, call_pure, call_read]
    · intro h5
      rw [hrun]
      simp [loop, key, h5]
    · intro h5
      rw [hrun]
      simp [loop, key, h5]
  · intro sig rbc hs hn
    constructor
    · have hs1 : ¬ C.signal_pending n.2.ctx.status ≠ 0 := fun h => h hs
      exact (if_neg hs1).trans (if_pos hn)
    · simp [s1, n, r, do_singlestep, call_ctx, call_read]
  · intro sig
    obtain ⟨new, h, _, hj⟩ := compensate_calls C fuel sig s
    exact ⟨new, h, hj⟩

/-- C9 in the concrete world: a call for `SIGSEGV` entered with the counter at 2
for the recorded count 3, on a process that faults at the recorded spot. -/
theorem compensate_branch_count_trap_delivery_witness :
    compensate_branch_count toy (1 + (0 + 1)) SIGSEGV (toy_state (-11) 3 (toy_at 2 true)) =
      .returned
        { ctx := { (toy_state (-11) 3 toy_world).ctx with pending_sig := 0, status := 0x57f },
          world := toy_at 4 false,
          calls := [.read_rbc_up, .read_child_registers 7, .read_rbc_up, .singlestep 0,
            .read_child_registers 7, .read_rbc_up, .compare_register_files 0 0,
            .print_inst 7, .singlestep 0, .print_inst 7, .singlestep 11] } :=
  ((compensate_branch_count_trap_delivery toy 0 1 (toy_state (-11) 3 (toy_at 2 true))
      { ctx := { (toy_state (-11) 3 toy_world).ctx with status := 0x57f },
        world := toy_at 3 true,
        calls := [.read_rbc_up, .read_child_registers 7, .read_rbc_up, .singlestep 0] }).1
    (by decide) (by decide) (by decide) (by decide) (by decide) (by decide)).2.1 (by decide)

/-- C10 in the concrete world: the call for `SIGSEGV` on a faulting process
returns with `pending_sig = 0`; the call for `SIGIO`, and `rep_process_signal` on
a `SIGIO` event and on a scheduler event with recorded count 3, do not return. -/
theorem compensate_branch_count_returns_only_by_trap_witness :
    compensate_branch_count toy 9 SIGSEGV (toy_state (-11) 3 (toy_at 1 true)) =
        .returned (compensate_branch_count toy 9 SIGSEGV
          (toy_state (-11) 3 (toy_at 1 true))).state ∧
      (compensate_branch_count toy 9 SIGSEGV
          (toy_state (-11) 3 (toy_at 1 true))).state.ctx.pending_sig = 0 ∧
      (compensate_branch_count toy 9 SIGIO (toy_state (-29) 3 (toy_at 1 false))).isReturned
        = false ∧
      (rep_process_signal toy 9 (toy_state (-29) 3 toy_world)).isReturned = false ∧
      (rep_process_signal toy 9 (toy_state (-1028) 3 toy_world)).isReturned = false :=
  ⟨by decide,
   ((compensate_branch_count_returns_only_by_trap toy).1 9 SIGSEGV
      (toy_state (-11) 3 (toy_at 1 true)) _ (by decide)).2,
   (compensate_branch_count_returns_only_by_trap toy).2.1 9 SIGIO
      (toy_state (-29) 3 (toy_at 1 false)) (by decide),
   ((compensate_branch_count_returns_only_by_trap toy).2.2 9 (toy_state (-29) 3 toy_world)
      (Or.inl ⟨Or.inl (by decide), by decide, by decide⟩)).1,
   ((compensate_branch_count_returns_only_by_trap toy).2.2 9 (toy_state (-1028) 3 toy_world)
      (Or.inr (by decide))).1⟩

/-- C5 (what the code does at the failing input).  A call for `SIGIO` with the
live counter at the recorded count 3 and matching registers sets
`pending_sig`, single-steps once with no signal, and then goes round the loop
again instead of returning: the next pass reads the counter at 4 and ends in
`sys_exit`.  No amount of fuel makes the call return. -/
theorem compensate_branch_count_async_never_returns :
    compensate_branch_count toy 9 SIGIO (toy_state (-29) 3 (toy_at 3 false)) =
        .aborted .sys_exit
          { ctx := { (toy_state (-29) 3 toy_world).ctx with pending_sig := 29, status := 0x57f },
            world := toy_at 4 false,
            calls := [.read_rbc_up, .read_child_registers 7, .read_rbc_up,
              .compare_register_files 0 0, .singlestep 0,
              .read_child_registers 7, .read_rbc_up] } ∧
      ∀ fuel, (compensate_branch_count toy fuel SIGIO
        (toy_state (-29) 3 (toy_at 3 false))).isReturned = false :=
  ⟨by decide, fun fuel => compensate_not_returned toy fuel SIGIO _ (by decide)⟩

/-- C7 (what the code does at the failing input).  For a `SIGIO` event and for
a scheduler event with recorded count 10, the value handed to `reset_hpc` is
`10 - 50` in unsigned 64-bit arithmetic, `18446744073709551576`, which is not
below the recorded count. -/
theorem reset_hpc_target_wraps :
    (rep_process_signal toy 0 (toy_state (-29) 10 toy_world)).state.calls =
        [.reset_hpc 18446744073709551576, .read_rbc_up] ∧
      (rep_process_signal toy 0 (toy_state (-1028) 10 toy_world)).state.calls.head? =
        some (.reset_hpc 18446744073709551576) ∧
      sub_u64 10 SKID_SIZE = 18446744073709551576 ∧
      ¬ sub_u64 10 SKID_SIZE < 10 := by
  decide

end convergence

/-! ## The scheduler event -/

section sched
variable {W : Type} (C : Collaborators W)

/-- The callers do tear the counters down when the convergence call returns:
on a `SIGSEGV` event of a faulting process in the concrete world
`rep_process_signal` returns, and its last two calls are `stop_hpc_down` and
`stop_hpc`. -/
theorem rep_process_signal_sigsegv_teardown :
    (rep_process_signal toy 9 (toy_state (-11) 3 (toy_at 0 true))).isReturned = true ∧
      (rep_process_signal toy 9 (toy_state (-11) 3 (toy_at 0 true))).state.calls =
        [.reset_hpc 18446744073709551569, .read_rbc_up,
          .read_child_registers 7, .read_rbc_up, .singlestep 0,
          .read_child_registers 7, .read_rbc_up, .singlestep 0,
          .read_child_registers 7, .read_rbc_up, .singlestep 0,
          .read_child_registers 7, .read_rbc_up, .compare_register_files 0 0,
          .print_inst 7, .singlestep 0, .print_inst 7, .singlestep 11,
          .stop_hpc_down, .stop_hpc] := by
  decide

theorem count_stop_hpc_append {pre new : List Call}
    (h : ∀ c ∈ new, c.in_loop = true) :
    (pre ++ new).count Call.stop_hpc = pre.count Call.stop_hpc := by
  rw [List.count_append, List.count_eq_zero.2 (in_loop_ne_stop_hpc h), Nat.add_zero]

/-- C8 (what the code does).  Scheduler event: entered with no pending signal
on an event whose negated stop reason is `-USR_SCHED` and whose recorded count
is positive, `rep_process_signal` first calls `reset_hpc`, then
`goto_next_event`, then asks for the owner of the down-counter descriptor.  If
the owner is not `ctx->child_tid` the run ends in `sys_exit` with exactly those
three calls made: no call of `compensate_branch_count`, no `singlestep`, no
counter stop.  If it is, `pending_sig` is set to 0, `stop_hpc_down` is called
and `compensate_branch_count` runs from that state; but that call never
returns for the scheduler signal, so the outcome of `rep_process_signal` is the
outcome of that call, it is not a return for any fuel, and `stop_hpc` (line
147) is never called. -/
theorem rep_process_signal_sched (fuel : Nat) (s : State W)
    (hp : s.ctx.pending_sig = 0)
    (hsig : neg_int s.ctx.trace.stop_reason = -C.USR_SCHED)
    (hpos : 0 < s.ctx.trace.rbc_up) :
    let target := sub_u64 s.ctx.trace.rbc_up SKID_SIZE
    let s1 := call_ctx (fun c w => C.reset_hpc c target w) (.reset_hpc target) s
    let s2 := call_ctx C.goto_next_event .goto_next_event s1
    let fd := s2.ctx.hpc.rbc_down.fd
    let o := call_read (C.fcntl_getown fd) (.fcntl_getown fd) s2
    let s3 := o.2
    let s4 := call_ctx C.stop_hpc_down .stop_hpc_down (set_pending_sig 0 s3)
    s3.calls = s.calls ++ [.reset_hpc target, .goto_next_event, .fcntl_getown fd] ∧
    (o.1 ≠ s3.ctx.child_tid → rep_process_signal C fuel s = .aborted .sys_exit s3) ∧
    (o.1 = s3.ctx.child_tid →
      s4.calls = s.calls ++
        [.reset_hpc target, .goto_next_event, .fcntl_getown fd, .stop_hpc_down] ∧
      (s4.ctx, s4.world) = C.stop_hpc_down { s3.ctx with pending_sig := 0 } s3.world ∧
      rep_process_signal C fuel s = compensate_branch_count C fuel (-C.USR_SCHED) s4 ∧
      (rep_process_signal C fuel s).isReturned = false ∧
      (rep_process_signal C fuel s).state.calls.count .stop_hpc =
        s.calls.count .stop_hpc) := by
  intro target s1 s2 fd o s3 s4
  have hnr : -C.USR_SCHED ≠ -C.SIG_SEGV_RDTSC := sched_ne_rdtsc C
  have hpn : ¬ s.ctx.pending_sig ≠ 0 := fun h => h hp
  have hnr' : ¬ neg_int s.ctx.trace.stop_reason = -C.SIG_SEGV_RDTSC := by rw [hsig]; exact hnr
  have hne : -C.USR_SCHED ≠ SIGSEGV := (sigsegv_ne_sched C).symm
  refine ⟨?_, ?_, ?_⟩
  · simp [s3, o, s2, s1, call_ctx, call_read]
  · intro hne
    exact (if_neg hpn).trans ((if_neg hnr').trans ((if_pos hsig).trans
      ((if_pos hpos).trans (if_neg hne))))
  · intro heq
    have hn := compensate_not_returned C fuel (-C.USR_SCHED) s4 hne
    have hrun : rep_process_signal C fuel s =
        compensate_branch_count C fuel (-C.USR_SCHED) s4 := by
      have h : rep_process_signal C fuel s =
          (compensate_branch_count C fuel (neg_int s.ctx.trace.stop_reason) s4).andThen
            (fun s5 => .returned (call_ctx C.stop_hpc .stop_hpc s5)) :=
        (if_neg hpn).trans ((if_neg hnr').trans ((if_pos hsig).trans
          ((if_pos hpos).trans (if_pos heq))))
      rw [hsig] at h
      rw [h, andThen_of_not_returned _ _ hn]
    have h4 : s4.calls = s.calls ++
        [.reset_hpc target, .goto_next_event, .fcntl_getown fd, .stop_hpc_down] := by
      simp [s4, s3, o, s2, s1, call_ctx, call_read, set_pending_sig]
    refine ⟨h4, rfl, hrun, ?_, ?_⟩
    · rw [hrun]; exact hn
    · obtain ⟨new, hc, hin, _⟩ := compensate_calls C fuel (-C.USR_SCHED) s4
      rw [hrun, hc, count_stop_hpc_append hin, h4, List.count_append]
      simp [List.count_cons]

/-- C8 in the concrete world, once with another owner of the descriptor and
once, for the recorded count 60, with the traced thread as owner. -/
theorem rep_process_signal_sched_witness :
    rep_process_signal toy 9 (toy_state (-1028) 3 { toy_world with owner := 8 }) =
        .aborted .sys_exit
          { ctx := (toy_state (-1028) 3 toy_world).ctx,
            world := { toy_world with owner := 8, armed := some 18446744073709551569 },
            calls := [.reset_hpc 18446744073709551569, .goto_next_event, .fcntl_getown 3] } ∧
      (rep_process_signal toy 70 (toy_state (-1028) 60 toy_world)).isReturned = false ∧
      (rep_process_signal toy 70 (toy_state (-1028) 60 toy_world)).state.calls.count
        .stop_hpc = 0 :=
  ⟨(rep_process_signal_sched toy 9 (toy_state (-1028) 3 { toy_world with owner := 8 })
      rfl (by decide) (by decide)).2.1 (by decide),
   ((rep_process_signal_sched toy 70 (toy_state (-1028) 60 toy_world)
      rfl (by decide) (by decide)).2.2 (by decide)).2.2.2.1,
   ((rep_process_signal_sched toy 70 (toy_state (-1028) 60 toy_world)
      rfl (by decide) (by decide)).2.2 (by decide)).2.2.2.2⟩

end sched

/-! ## The register comparison at the convergence point -/

section flags
variable {W : Type} (C : Collaborators W)

end flags

end RepProcessSignal
